import Mathlib

/-!
The chain-meta-exporter: a shallow embedding of `main.go`.

The program is a Prometheus collector.  `exporter.Describe` sends seven metric
descriptors, `exporter.Collect` calls `getMetadata` (one gRPC dial and one
`GetChainMeta` request) and sends seven gauge samples built from the answer.

Layout of the embedding:

* the Go constants and the global `GaugeOpts` records, verbatim;
* the parts of the client libraries that the program calls
  (`prometheus.BuildFQName`, `NewDesc`, `NewGaugeVec`, `WithLabelValues`, `Set`,
  `GaugeVec.Collect`), as pure functions;
* the network as a pair of oracles (`Net`), so that `getMetadata` is a function
  of the answers it receives and records the calls it makes;
* a channel is the list of values sent on it, in order;
* the three ways `Collect` can stop: it returns, `log.Fatal` exits the
  process, or a nil pointer is dereferenced.
-/

namespace ChainMetaExporter

/-! ## Constants (main.go, lines 19-32) -/

def LabelEndpoint : String := "endpoint"

def Height : String := "height"
def NumActions : String := "num_actions"
def Tps : String := "tps"
def EpochNum : String := "epoch_num"
def EpochHeight : String := "epoch_height"
def EpochGravityChainStartHeight : String := "epoch_gravity_chain_start_height"
def TpsFloat : String := "tps_float"

/-- Namespace is the metrics prefix. -/
def Namespace : String := "iotex_chainmeta"

/-! ## The part of the Prometheus client that the program uses -/

/-- The record `prometheus.GaugeOpts`; a field the program leaves out has Go's
zero value. -/
structure GaugeOpts where
  Namespace : String
  Subsystem : String
  Name : String
  Help : String
  ConstLabels : List (String × String)
deriving DecidableEq, Repr

/-- The record behind `*prometheus.Desc`: fully-qualified name, help text, names
of the variable labels, constant labels. -/
structure Desc where
  fqName : String
  help : String
  variableLabels : List String
  constLabels : List (String × String)
deriving DecidableEq, Repr

/-- The function `prometheus.BuildFQName`: the non-empty ones of namespace,
subsystem and name joined by an underscore; empty when the name is empty. -/
def BuildFQName (ns subsystem name : String) : String :=
  if name = "" then ""
  else if ns ≠ "" ∧ subsystem ≠ "" then "_".intercalate [ns, subsystem, name]
  else if ns ≠ "" then "_".intercalate [ns, name]
  else if subsystem ≠ "" then "_".intercalate [subsystem, name]
  else name

/-- The function `prometheus.NewDesc`. -/
def NewDesc (fqName help : String) (variableLabels : List String)
    (constLabels : List (String × String)) : Desc :=
  { fqName := fqName, help := help, variableLabels := variableLabels,
    constLabels := constLabels }

/-- The value of a Go floating-point number: a finite number (kept as the
rational it denotes), an infinity, or a NaN. -/
inductive FloatVal where
  | finite (q : ℚ)
  | inf (negative : Bool)
  | nan
deriving DecidableEq

/-- One gauge child as it is sent on the metric channel: its descriptor, the
values of its variable labels, its current value. -/
structure Metric where
  desc : Desc
  labelValues : List String
  value : FloatVal
deriving DecidableEq

/-- The fully-qualified name under which a sample is exposed. -/
def Metric.name (m : Metric) : String := m.desc.fqName

/-- The label pairs of a sample: constant labels, then each variable label name
with its value. -/
def Metric.labelPairs (m : Metric) : List (String × String) :=
  m.desc.constLabels ++ m.desc.variableLabels.zip m.labelValues

/-- A `*prometheus.GaugeVec`: the descriptor shared by its children and the
children created so far. -/
structure GaugeVec where
  desc : Desc
  children : List Metric
deriving DecidableEq

/-- The function `prometheus.NewGaugeVec`: the descriptor is built from the
options exactly as `Describe` builds it by hand; there is no child yet. -/
def NewGaugeVec (opts : GaugeOpts) (labelNames : List String) : GaugeVec :=
  { desc := NewDesc (BuildFQName opts.Namespace opts.Subsystem opts.Name) opts.Help
      labelNames opts.ConstLabels,
    children := [] }

/-- The call `gv.WithLabelValues(lvs...).Set(v)`: `WithLabelValues` panics
(`none`) when the number of values differs from the number of label names;
otherwise the child with these label values is created if it is new, and it
holds `v` afterwards. -/
def GaugeVec.withLabelValuesSet (gv : GaugeVec) (lvs : List String) (v : FloatVal) :
    Option GaugeVec :=
  if lvs.length ≠ gv.desc.variableLabels.length then none
  else
    some { gv with
      children :=
        if gv.children.any (fun m => decide (m.labelValues = lvs)) then
          gv.children.map (fun m => if m.labelValues = lvs then { m with value := v } else m)
        else gv.children ++ [{ desc := gv.desc, labelValues := lvs, value := v }] }

/-- The method `GaugeVec.Collect`: every child is sent on the channel. -/
def GaugeVec.Collect (gv : GaugeVec) (ch : List Metric) : List Metric :=
  ch ++ gv.children

/-! ## Globals (main.go, lines 40-78) -/

/-- The static labels that come with every metric. -/
def labels : List String := [LabelEndpoint]

def metaHeightOpts : GaugeOpts :=
  { Name := Height, Namespace := Namespace, Subsystem := "",
    Help := "Gauge for Iotex Chain metadata Height", ConstLabels := [] }

def metaNumActionsOpts : GaugeOpts :=
  { Name := NumActions, Namespace := Namespace, Subsystem := "",
    Help := "Gauge for Iotex Chain metadata NumActions", ConstLabels := [] }

def metaTpsOpts : GaugeOpts :=
  { Name := Tps, Namespace := Namespace, Subsystem := "",
    Help := "Gauge for Iotex Chain metadata Tps", ConstLabels := [] }

def metaEpochNumOpts : GaugeOpts :=
  { Name := EpochNum, Namespace := Namespace, Subsystem := "",
    Help := "Gauge for Iotex Chain metadata EpochNum", ConstLabels := [] }

def metaEpochHeightOpts : GaugeOpts :=
  { Name := EpochHeight, Namespace := Namespace, Subsystem := "",
    Help := "Gauge for Iotex Chain metadata EpochHeight", ConstLabels := [] }

def metaEpochGravityChainStartHeightOpts : GaugeOpts :=
  { Name := EpochGravityChainStartHeight, Namespace := Namespace, Subsystem := "",
    Help := "Gauge for Iotex Chain metadata EpochGravityChainStartHeight", ConstLabels := [] }

def metaTpsFloatOpts : GaugeOpts :=
  { Name := TpsFloat, Namespace := Namespace, Subsystem := "",
    Help := "Gauge for Iotex Chain metadata TpsFloat", ConstLabels := [] }

/-! ## The chain metadata message (package iotextypes) -/

/-- The message `iotextypes.EpochData`: three 64-bit integers.  `Int` holds
every value of Go's `uint64` and `int64`. -/
structure EpochData where
  Num : Int
  Height : Int
  GravityChainStartHeight : Int
deriving DecidableEq

/-- The message `iotextypes.ChainMeta`.  `Epoch` is a pointer to a nested
message and may be nil. -/
structure ChainMeta where
  Height : Int
  NumActions : Int
  Tps : Int
  Epoch : Option EpochData
  TpsFloat : FloatVal
deriving DecidableEq

/-- The message `iotexapi.GetChainMetaResponse`; `ChainMeta` is a pointer and
may be nil. -/
structure GetChainMetaResponse where
  ChainMeta : Option ChainMeta
deriving DecidableEq

/-! ## Conversions to float64 -/

/-- The number of low bits that do not fit a 53-bit significand: the least `k`
with `n / 2 ^ k < 2 ^ 53`, searched for at most `fuel` halvings. -/
def excessBits : Nat → Nat → Nat
  | 0, _ => 0
  | fuel + 1, n => if n < 2 ^ 53 then 0 else excessBits fuel (n / 2) + 1

/-- Rounding of a natural number below `2 ^ 64` to the nearest number with a
53-bit significand, ties to the even significand (IEEE 754 default rounding). -/
def roundToFloat64 (n : Nat) : Nat :=
  let k := excessBits 64 n
  let q := n / 2 ^ k
  let r := n % 2 ^ k
  if 2 * r < 2 ^ k then q * 2 ^ k
  else if 2 ^ k < 2 * r then (q + 1) * 2 ^ k
  else (q + q % 2) * 2 ^ k

/-- The number denoted by the Go conversion `float64(i)` of a 64-bit integer:
the magnitude is rounded, the sign is kept. -/
def float64IntValue (i : Int) : Int :=
  if i < 0 then -((roundToFloat64 i.natAbs : Nat) : Int) else ((roundToFloat64 i.natAbs : Nat) : Int)

/-- The Go conversion `float64(i)` of a 64-bit integer field. -/
def float64OfInt (i : Int) : FloatVal :=
  FloatVal.finite ((float64IntValue i : Int) : ℚ)

/-- The Go conversion `float64(x)` of a floating-point field: widening a
float32 (or keeping a float64) does not change the value. -/
def float64OfFloat (x : FloatVal) : FloatVal := x

/-! ## The network, as seen by `getMetadata` -/

/-- A Go `error` value. -/
structure Error where
  msg : String
deriving DecidableEq, Repr

/-- A `context.Context` as the program builds them: the background context, or
a context derived from a parent with a timeout in seconds. -/
inductive Ctx where
  | background
  | withTimeout (parent : Ctx) (seconds : Nat)
deriving DecidableEq, Repr

/-- The time limit a context carries, in seconds from its creation: the
background context has none, a derived one has the smaller of its own and its
parent's. -/
def Ctx.deadline : Ctx → Option Nat
  | Ctx.background => none
  | Ctx.withTimeout parent seconds =>
    match parent.deadline with
    | none => some seconds
    | some d => some (min d seconds)

/-- An open `*grpc.ClientConn`. -/
structure Conn where
  target : String
deriving DecidableEq, Repr

/-- What the network answers during one call of `getMetadata`: the outcome of
`grpc.DialContext` for a context and a target, and the outcome of the
`GetChainMeta` request on a connection with a context. -/
structure Net where
  dial : Ctx → String → Except Error Conn
  getChainMeta : Conn → Ctx → Except Error GetChainMetaResponse

/-- A call that leaves `getMetadata`, in the order in which it is made. -/
inductive Call where
  | dial (ctx : Ctx) (target : String)
  | getChainMeta (conn : Conn) (ctx : Ctx)
  | close (conn : Conn)
  | cancel
deriving DecidableEq, Repr

/-- The function `getMetadata` (main.go, lines 186-203).  The result is Go's
pair of a `*iotextypes.ChainMeta`, nil when `none`, and an `error`, nil when
`none`; the second component lists the calls made, the deferred `conn.Close()`
and `cancel()` last. -/
def getMetadata (net : Net) (endpoint : String) :
    (Option ChainMeta × Option Error) × List Call :=
  let grpcCtx := Ctx.withTimeout Ctx.background 10
  match net.dial grpcCtx endpoint with
  | Except.error err => ((none, some err), [Call.dial grpcCtx endpoint, Call.cancel])
  | Except.ok conn =>
    match net.getChainMeta conn Ctx.background with
    | Except.error err =>
      ((none, some err),
        [Call.dial grpcCtx endpoint, Call.getChainMeta conn Ctx.background,
          Call.close conn, Call.cancel])
    | Except.ok resp =>
      ((resp.ChainMeta, none),
        [Call.dial grpcCtx endpoint, Call.getChainMeta conn Ctx.background,
          Call.close conn, Call.cancel])

/-! ## The collector (main.go, lines 81-165) -/

/-- The struct `exporter`. -/
structure exporter where
  endpoint : String
deriving DecidableEq, Repr

/-- The descriptor that `Describe` builds from one options record. -/
def describeOne (opts : GaugeOpts) : Desc :=
  NewDesc (BuildFQName opts.Namespace opts.Subsystem opts.Name) opts.Help labels []

/-- The method `exporter.Describe` (main.go, lines 85-129): the descriptors sent
on the channel, in order.  The receiver is not read. -/
def exporter.Describe (_e : exporter) : List Desc :=
  [ describeOne metaHeightOpts,
    describeOne metaNumActionsOpts,
    describeOne metaTpsOpts,
    describeOne metaEpochNumOpts,
    describeOne metaEpochHeightOpts,
    describeOne metaEpochGravityChainStartHeightOpts,
    describeOne metaTpsFloatOpts ]

/-- How a call of `Collect` stops. -/
inductive Termination where
  | returned
  | exited (code : Nat) (logged : Error)
  | panicked
deriving DecidableEq, Repr

/-- What a call of `Collect` has done when it stops: the metrics sent on the
channel, how it stopped, the network calls made. -/
structure CollectResult where
  sent : List Metric
  exit : Termination
  calls : List Call
deriving DecidableEq

/-- One block of `Collect`: a fresh gauge vector is made from `opts`, the child
for the endpoint is set to `v` and the vector is collected into the channel.
`v` is `none` when evaluating the argument of `Set` dereferences a nil pointer.
The result is `Except.error` with the channel as it stands when the block
panics. -/
def gaugeBlock (opts : GaugeOpts) (endpoint : String) (v : Option FloatVal)
    (ch : List Metric) : Except (List Metric) (List Metric) :=
  let gv := NewGaugeVec opts labels
  match v with
  | none => Except.error ch
  | some x =>
    match gv.withLabelValuesSet [endpoint] x with
    | none => Except.error ch
    | some gv1 => Except.ok (gv1.Collect ch)

/-- The seven blocks of `Collect` after a fetch without error (main.go, lines
138-164); `metadata` is the pointer returned by `getMetadata`. -/
def collectBlocks (endpoint : String) (metadata : Option ChainMeta) :
    Except (List Metric) (List Metric) := do
  let ch ← gaugeBlock metaHeightOpts endpoint
    (metadata.map (fun m => float64OfInt m.Height)) []
  let ch ← gaugeBlock metaNumActionsOpts endpoint
    (metadata.map (fun m => float64OfInt m.NumActions)) ch
  let ch ← gaugeBlock metaTpsOpts endpoint
    (metadata.map (fun m => float64OfInt m.Tps)) ch
  let ch ← gaugeBlock metaEpochNumOpts endpoint
    ((metadata.bind (fun m => m.Epoch)).map (fun ep => float64OfInt ep.Num)) ch
  let ch ← gaugeBlock metaEpochHeightOpts endpoint
    ((metadata.bind (fun m => m.Epoch)).map (fun ep => float64OfInt ep.Height)) ch
  let ch ← gaugeBlock metaEpochGravityChainStartHeightOpts endpoint
    ((metadata.bind (fun m => m.Epoch)).map
      (fun ep => float64OfInt ep.GravityChainStartHeight)) ch
  gaugeBlock metaTpsFloatOpts endpoint
    (metadata.map (fun m => float64OfFloat m.TpsFloat)) ch

/-- The method `exporter.Collect` (main.go, lines 131-165).  On an error of
`getMetadata`, `log.Fatal` writes the error to the log and calls `os.Exit(1)`;
the `return` after it is never reached. -/
def exporter.Collect (net : Net) (e : exporter) : CollectResult :=
  match getMetadata net e.endpoint with
  | ((_, some err), calls) => { sent := [], exit := Termination.exited 1 err, calls := calls }
  | ((metadata, none), calls) =>
    match collectBlocks e.endpoint metadata with
    | Except.ok ch => { sent := ch, exit := Termination.returned, calls := calls }
    | Except.error ch => { sent := ch, exit := Termination.panicked, calls := calls }

/-- The hosting process over a sequence of scrapes, one network behaviour per
scrape: `Collect` runs once per scrape for as long as the process is alive; a
call that does not return (exit or panic) ends the process, and the later
scrapes are not served.  The result lists the calls of `Collect` that ran. -/
def serve (e : exporter) : List Net → List CollectResult
  | [] => []
  | net :: rest =>
    if (e.Collect net).exit = Termination.returned then e.Collect net :: serve e rest
    else [e.Collect net]

/-! ## Test data -/

/-- The snapshot of the scenario in the specification. -/
def sampleMeta : ChainMeta :=
  { Height := 100, NumActions := 5000, Tps := 50,
    Epoch := some { Num := 2, Height := 80, GravityChainStartHeight := 1000 },
    TpsFloat := FloatVal.finite 50.5 }

/-- A node that accepts the connection and answers with `resp`. -/
def netAnswering (resp : GetChainMetaResponse) : Net :=
  { dial := fun _ target => Except.ok { target := target },
    getChainMeta := fun _ _ => Except.ok resp }

/-- A node that refuses the connection. -/
def netRefusing : Net :=
  { dial := fun _ _ => Except.error { msg := "connection refused" },
    getChainMeta := fun _ _ => Except.error { msg := "unreachable" } }

/-- A node that accepts the connection and fails the request. -/
def netFailingRequest : Net :=
  { dial := fun _ target => Except.ok { target := target },
    getChainMeta := fun _ _ => Except.error { msg := "rpc error" } }

/-- The exporter of the scenario in the specification. -/
def sampleExporter : exporter := { endpoint := "node:80" }

/-- A snapshot with a complete epoch record. -/
def netGood : Net := netAnswering { ChainMeta := some sampleMeta }

/-- The sample a gauge named `fqName` exposes for one endpoint: one variable
label, `endpoint`, no constant label. -/
def gaugeSample (fqName help endpoint : String) (v : FloatVal) : Metric :=
  { desc := { fqName := fqName, help := help, variableLabels := ["endpoint"], constLabels := [] },
    labelValues := [endpoint],
    value := v }

/-- The context handed over by a call that takes one. -/
def Call.ctx? : Call → Option Ctx
  | Call.dial ctx _ => some ctx
  | Call.getChainMeta _ ctx => some ctx
  | Call.close _ => none
  | Call.cancel => none

/-- Recogniser of the dial among the calls of a fetch. -/
def Call.isDial : Call → Bool
  | Call.dial _ _ => true
  | _ => false

/-- Recogniser of the metadata request among the calls of a fetch. -/
def Call.isRequest : Call → Bool
  | Call.getChainMeta _ _ => true
  | _ => false

/-- A response whose chain metadata is present and whose epoch record is absent. -/
def netWithoutEpoch : Net :=
  netAnswering { ChainMeta := some { sampleMeta with Epoch := none } }

/-- A snapshot whose height is `2 ^ 53 + 1`. -/
def netTallChain : Net :=
  netAnswering { ChainMeta := some { sampleMeta with Height := 9007199254740993 } }

/-- A snapshot that differs from the one of the scenario in every field. -/
def netLater : Net :=
  netAnswering
    { ChainMeta :=
        some
          { Height := 101, NumActions := 5040, Tps := 40,
            Epoch := some { Num := 3, Height := 100, GravityChainStartHeight := 1010 },
            TpsFloat := FloatVal.finite 40.25 } }

/-- A snapshot whose height is `2 ^ 60`, above `2 ^ 53` and held exactly by a
float64, and whose tps is `2 ^ 53 + 1`, which a float64 does not hold. -/
def mixedMeta : ChainMeta :=
  { Height := 1152921504606846976, NumActions := 5000, Tps := 9007199254740993,
    Epoch := some { Num := 2, Height := 9007199254740992, GravityChainStartHeight := 0 },
    TpsFloat := FloatVal.finite 50.5 }

/-- An integer that a float64 holds exactly: a 64-bit magnitude of the form
`m * 2 ^ j` with a significand `m` below `2 ^ 53`. -/
def Float64Exact (i : Int) : Prop :=
  i.natAbs < 2 ^ 64 ∧ ∃ m j : Nat, m < 2 ^ 53 ∧ i.natAbs = m * 2 ^ j

/-- The mapping table of the specification (section 4.3) applied to one
complete snapshot and one endpoint: the seven samples, in the order of the
table, each holding the float64 conversion of its field. -/
def snapshotSamples (endpoint : String) (s : ChainMeta) (ep : EpochData) : List Metric :=
  [ gaugeSample "iotex_chainmeta_height" "Gauge for Iotex Chain metadata Height"
      endpoint (float64OfInt s.Height),
    gaugeSample "iotex_chainmeta_num_actions" "Gauge for Iotex Chain metadata NumActions"
      endpoint (float64OfInt s.NumActions),
    gaugeSample "iotex_chainmeta_tps" "Gauge for Iotex Chain metadata Tps"
      endpoint (float64OfInt s.Tps),
    gaugeSample "iotex_chainmeta_epoch_num" "Gauge for Iotex Chain metadata EpochNum"
      endpoint (float64OfInt ep.Num),
    gaugeSample "iotex_chainmeta_epoch_height" "Gauge for Iotex Chain metadata EpochHeight"
      endpoint (float64OfInt ep.Height),
    gaugeSample "iotex_chainmeta_epoch_gravity_chain_start_height"
      "Gauge for Iotex Chain metadata EpochGravityChainStartHeight"
      endpoint (float64OfInt ep.GravityChainStartHeight),
    gaugeSample "iotex_chainmeta_tps_float" "Gauge for Iotex Chain metadata TpsFloat"
      endpoint s.TpsFloat ]

/-! ## Basic facts -/

theorem buildFQName_height : BuildFQName Namespace "" Height = "iotex_chainmeta_height" := by
  decide

theorem describe_eval (e : exporter) :
    e.Describe =
      [ { fqName := "iotex_chainmeta_height",
          help := "Gauge for Iotex Chain metadata Height",
          variableLabels := ["endpoint"], constLabels := [] },
        { fqName := "iotex_chainmeta_num_actions",
          help := "Gauge for Iotex Chain metadata NumActions",
          variableLabels := ["endpoint"], constLabels := [] },
        { fqName := "iotex_chainmeta_tps",
          help := "Gauge for Iotex Chain metadata Tps",
          variableLabels := ["endpoint"], constLabels := [] },
        { fqName := "iotex_chainmeta_epoch_num",
          help := "Gauge for Iotex Chain metadata EpochNum",
          variableLabels := ["endpoint"], constLabels := [] },
        { fqName := "iotex_chainmeta_epoch_height",
          help := "Gauge for Iotex Chain metadata EpochHeight",
          variableLabels := ["endpoint"], constLabels := [] },
        { fqName := "iotex_chainmeta_epoch_gravity_chain_start_height",
          help := "Gauge for Iotex Chain metadata EpochGravityChainStartHeight",
          variableLabels := ["endpoint"], constLabels := [] },
        { fqName := "iotex_chainmeta_tps_float",
          help := "Gauge for Iotex Chain metadata TpsFloat",
          variableLabels := ["endpoint"], constLabels := [] } ] := by
  unfold exporter.Describe
  decide

theorem collectBlocks_complete (endpoint : String) (s : ChainMeta) (ep : EpochData)
    (h : s.Epoch = some ep) :
    collectBlocks endpoint (some s) = Except.ok
      [ gaugeSample "iotex_chainmeta_height" "Gauge for Iotex Chain metadata Height"
          endpoint (float64OfInt s.Height),
        gaugeSample "iotex_chainmeta_num_actions" "Gauge for Iotex Chain metadata NumActions"
          endpoint (float64OfInt s.NumActions),
        gaugeSample "iotex_chainmeta_tps" "Gauge for Iotex Chain metadata Tps"
          endpoint (float64OfInt s.Tps),
        gaugeSample "iotex_chainmeta_epoch_num" "Gauge for Iotex Chain metadata EpochNum"
          endpoint (float64OfInt ep.Num),
        gaugeSample "iotex_chainmeta_epoch_height" "Gauge for Iotex Chain metadata EpochHeight"
          endpoint (float64OfInt ep.Height),
        gaugeSample "iotex_chainmeta_epoch_gravity_chain_start_height"
          "Gauge for Iotex Chain metadata EpochGravityChainStartHeight"
          endpoint (float64OfInt ep.GravityChainStartHeight),
        gaugeSample "iotex_chainmeta_tps_float" "Gauge for Iotex Chain metadata TpsFloat"
          endpoint s.TpsFloat ] := by
  obtain ⟨a, b, c, d, f⟩ := s
  subst h
  rfl

theorem collect_of_error (net : Net) (e : exporter) (err : Error)
    (h : (getMetadata net e.endpoint).1.2 = some err) :
    e.Collect net =
      { sent := [], exit := Termination.exited 1 err, calls := (getMetadata net e.endpoint).2 } := by
  unfold exporter.Collect
  rcases hg : getMetadata net e.endpoint with ⟨⟨m, er⟩, calls⟩
  rw [hg] at h
  simp only at h
  subst h
  rfl

theorem collect_of_ok (net : Net) (e : exporter) (metadata : Option ChainMeta)
    (h : (getMetadata net e.endpoint).1 = (metadata, none)) :
    e.Collect net =
      match collectBlocks e.endpoint metadata with
      | Except.ok ch =>
        { sent := ch, exit := Termination.returned, calls := (getMetadata net e.endpoint).2 }
      | Except.error ch =>
        { sent := ch, exit := Termination.panicked, calls := (getMetadata net e.endpoint).2 } := by
  unfold exporter.Collect
  rcases hg : getMetadata net e.endpoint with ⟨⟨m, er⟩, calls⟩
  rw [hg] at h
  simp only [Prod.mk.injEq] at h
  obtain ⟨h1, h2⟩ := h
  subst h1
  subst h2
  rfl

theorem getMetadata_dial_error (net : Net) (endpoint : String) (err : Error)
    (h : net.dial (Ctx.withTimeout Ctx.background 10) endpoint = Except.error err) :
    getMetadata net endpoint =
      ((none, some err), [Call.dial (Ctx.withTimeout Ctx.background 10) endpoint, Call.cancel]) := by
  unfold getMetadata
  simp only [h]

theorem getMetadata_request_error (net : Net) (endpoint : String) (conn : Conn) (err : Error)
    (h : net.dial (Ctx.withTimeout Ctx.background 10) endpoint = Except.ok conn)
    (h2 : net.getChainMeta conn Ctx.background = Except.error err) :
    getMetadata net endpoint =
      ((none, some err),
        [Call.dial (Ctx.withTimeout Ctx.background 10) endpoint,
          Call.getChainMeta conn Ctx.background, Call.close conn, Call.cancel]) := by
  unfold getMetadata
  simp only [h, h2]

theorem getMetadata_ok (net : Net) (endpoint : String) (conn : Conn)
    (resp : GetChainMetaResponse)
    (h : net.dial (Ctx.withTimeout Ctx.background 10) endpoint = Except.ok conn)
    (h2 : net.getChainMeta conn Ctx.background = Except.ok resp) :
    getMetadata net endpoint =
      ((resp.ChainMeta, none),
        [Call.dial (Ctx.withTimeout Ctx.background 10) endpoint,
          Call.getChainMeta conn Ctx.background, Call.close conn, Call.cancel]) := by
  unfold getMetadata
  simp only [h, h2]

theorem getMetadata_one_dial (net : Net) (endpoint : String) :
    (getMetadata net endpoint).2.filter Call.isDial =
      [Call.dial (Ctx.withTimeout Ctx.background 10) endpoint] := by
  cases hd : net.dial (Ctx.withTimeout Ctx.background 10) endpoint with
  | error err => rw [getMetadata_dial_error net endpoint err hd]; rfl
  | ok conn =>
    cases hr : net.getChainMeta conn Ctx.background with
    | error err => rw [getMetadata_request_error net endpoint conn err hd hr]; rfl
    | ok resp => rw [getMetadata_ok net endpoint conn resp hd hr]; rfl

theorem getMetadata_requests_le_one (net : Net) (endpoint : String) :
    ((getMetadata net endpoint).2.filter Call.isRequest).length ≤ 1 := by
  cases hd : net.dial (Ctx.withTimeout Ctx.background 10) endpoint with
  | error err => rw [getMetadata_dial_error net endpoint err hd]; simp [Call.isRequest]
  | ok conn =>
    cases hr : net.getChainMeta conn Ctx.background with
    | error err => rw [getMetadata_request_error net endpoint conn err hd hr]; simp [Call.isRequest]
    | ok resp => rw [getMetadata_ok net endpoint conn resp hd hr]; simp [Call.isRequest]

theorem collect_calls (net : Net) (e : exporter) :
    (e.Collect net).calls = (getMetadata net e.endpoint).2 := by
  unfold exporter.Collect
  rcases hg : getMetadata net e.endpoint with ⟨⟨m, er⟩, calls⟩
  cases er with
  | some err => rfl
  | none =>
    simp only
    cases collectBlocks e.endpoint m <;> rfl

/-! ## The number of samples of one call -/

theorem collectBlocks_nil (endpoint : String) :
    collectBlocks endpoint none = Except.error [] := rfl

theorem collectBlocks_without_epoch (endpoint : String) (s : ChainMeta) (h : s.Epoch = none) :
    collectBlocks endpoint (some s) = Except.error
      [ gaugeSample "iotex_chainmeta_height" "Gauge for Iotex Chain metadata Height"
          endpoint (float64OfInt s.Height),
        gaugeSample "iotex_chainmeta_num_actions" "Gauge for Iotex Chain metadata NumActions"
          endpoint (float64OfInt s.NumActions),
        gaugeSample "iotex_chainmeta_tps" "Gauge for Iotex Chain metadata Tps"
          endpoint (float64OfInt s.Tps) ] := by
  obtain ⟨a, b, c, d, f⟩ := s
  subst h
  rfl

/-- The number of samples one call of `Collect` sends is 0 (error of the fetch,
or nil chain metadata), 3 (epoch record absent) or 7. -/
theorem collect_sent_length (net : Net) (e : exporter) :
    (e.Collect net).sent.length = 0 ∨ (e.Collect net).sent.length = 3 ∨
      (e.Collect net).sent.length = 7 := by
  rcases hg : getMetadata net e.endpoint with ⟨⟨m, er⟩, calls⟩
  cases er with
  | some err =>
    rw [collect_of_error net e err (by rw [hg])]
    exact Or.inl rfl
  | none =>
    have hc := collect_of_ok net e m (by rw [hg])
    cases m with
    | none =>
      rw [collectBlocks_nil] at hc
      rw [hc]
      exact Or.inl rfl
    | some s =>
      cases hep : s.Epoch with
      | none =>
        rw [collectBlocks_without_epoch e.endpoint s hep] at hc
        rw [hc]
        exact Or.inr (Or.inl rfl)
      | some ep =>
        rw [collectBlocks_complete e.endpoint s ep hep] at hc
        rw [hc]
        exact Or.inr (Or.inr rfl)

/-! ## C5: the descriptors -/

/-- C5: `exporter.Describe` takes no network behaviour as input and sends, for
every exporter value, the same seven descriptors in the same order: their
fully-qualified names are the seven `iotex_chainmeta_...` names (namespace and
name joined by an underscore, the empty subsystem skipped), the names are
pairwise distinct, and every descriptor has the label list `["endpoint"]`. -/
theorem describe_seven_fixed_descriptors (e e2 : exporter) :
    e.Describe = e2.Describe ∧
    (e.Describe).length = 7 ∧
    (e.Describe).map Desc.fqName =
      [ "iotex_chainmeta_height", "iotex_chainmeta_num_actions", "iotex_chainmeta_tps",
        "iotex_chainmeta_epoch_num", "iotex_chainmeta_epoch_height",
        "iotex_chainmeta_epoch_gravity_chain_start_height", "iotex_chainmeta_tps_float" ] ∧
    ((e.Describe).map Desc.fqName).Nodup ∧
    (e.Describe).map Desc.variableLabels = List.replicate 7 ["endpoint"] ∧
    BuildFQName Namespace "" Height = Namespace ++ "_" ++ Height := by
  refine ⟨rfl, ?_, ?_, ?_, ?_, ?_⟩
  · rw [describe_eval]; rfl
  · rw [describe_eval]; rfl
  · rw [describe_eval]; decide
  · rw [describe_eval]; rfl
  · decide

/-! ## C9: errors of the fetch -/

/-- C9: `getMetadata` returns a non-nil error exactly when the dial or the
metadata request fails; a failed dial gives back its own error with a nil
snapshot and no request is made; a failed request gives back its own error with
a nil snapshot; when both succeed the result is the `ChainMeta` of the response
and a nil error. -/
theorem getMetadata_never_swallows_error (net : Net) (endpoint : String) :
    ((getMetadata net endpoint).1.2 ≠ none ↔
      ((∃ err, net.dial (Ctx.withTimeout Ctx.background 10) endpoint = Except.error err) ∨
        (∃ conn err, net.dial (Ctx.withTimeout Ctx.background 10) endpoint = Except.ok conn ∧
          net.getChainMeta conn Ctx.background = Except.error err))) ∧
    (∀ err, net.dial (Ctx.withTimeout Ctx.background 10) endpoint = Except.error err →
      (getMetadata net endpoint).1 = (none, some err) ∧
      ((getMetadata net endpoint).2.filter Call.isRequest) = []) ∧
    (∀ conn err, net.dial (Ctx.withTimeout Ctx.background 10) endpoint = Except.ok conn →
      net.getChainMeta conn Ctx.background = Except.error err →
      (getMetadata net endpoint).1 = (none, some err)) ∧
    (∀ conn resp, net.dial (Ctx.withTimeout Ctx.background 10) endpoint = Except.ok conn →
      net.getChainMeta conn Ctx.background = Except.ok resp →
      (getMetadata net endpoint).1 = (resp.ChainMeta, none)) := by
  refine ⟨?_, ?_, ?_, ?_⟩
  · cases hd : net.dial (Ctx.withTimeout Ctx.background 10) endpoint with
    | error err =>
      rw [getMetadata_dial_error net endpoint err hd]
      simp
    | ok conn =>
      cases hr : net.getChainMeta conn Ctx.background with
      | error err =>
        rw [getMetadata_request_error net endpoint conn err hd hr]
        simp [hr]
      | ok resp =>
        rw [getMetadata_ok net endpoint conn resp hd hr]
        simp [hr]
  · intro err hd
    rw [getMetadata_dial_error net endpoint err hd]
    exact ⟨rfl, rfl⟩
  · intro conn err hd hr
    rw [getMetadata_request_error net endpoint conn err hd hr]
  · intro conn resp hd hr
    rw [getMetadata_ok net endpoint conn resp hd hr]

/-- C9, at a node that accepts the connection and fails the request: the error
of the request comes back with a nil snapshot. -/
theorem getMetadata_never_swallows_error_witness :
    (getMetadata netFailingRequest "node:80").1 = (none, some { msg := "rpc error" }) :=
  (getMetadata_never_swallows_error netFailingRequest "node:80").2.2.1
    { target := "node:80" } { msg := "rpc error" } rfl rfl

/-! ## C8: the deadline -/

/-- C8 as stated fails: at a node that accepts the connection, the metadata
request is made with the background context, which carries no deadline. -/
theorem request_context_has_no_deadline :
    ¬ (∀ (net : Net) (endpoint : String) (c : Call) (ctx : Ctx),
        c ∈ (getMetadata net endpoint).2 → c.ctx? = some ctx → ctx.deadline = some 10) := by
  intro h
  have h1 := h netGood "node:80" (Call.getChainMeta { target := "node:80" } Ctx.background)
    Ctx.background (by decide) rfl
  exact absurd h1 (by decide)

/-- C8, amended: the 10-second deadline bounds the dial only.  In every run of
`getMetadata`, whether the dial succeeds or fails, there is exactly one dial
and it is made with the context whose deadline is 10 seconds; the contexts
handed over are that one alone when the dial fails, and that one followed by
the background context, which carries no deadline, for the one metadata
request made when the dial succeeds. -/
theorem deadline_bounds_dial_only (net : Net) (endpoint : String) :
    (getMetadata net endpoint).2.filter Call.isDial =
      [Call.dial (Ctx.withTimeout Ctx.background 10) endpoint] ∧
    (Ctx.withTimeout Ctx.background 10).deadline = some 10 ∧
    (getMetadata net endpoint).2.filter Call.isRequest =
      (match net.dial (Ctx.withTimeout Ctx.background 10) endpoint with
        | Except.ok conn => [Call.getChainMeta conn Ctx.background]
        | Except.error _ => []) ∧
    (getMetadata net endpoint).2.filterMap Call.ctx? =
      (match net.dial (Ctx.withTimeout Ctx.background 10) endpoint with
        | Except.ok _ => [Ctx.withTimeout Ctx.background 10, Ctx.background]
        | Except.error _ => [Ctx.withTimeout Ctx.background 10]) ∧
    Ctx.background.deadline = none := by
  refine ⟨getMetadata_one_dial net endpoint, rfl, ?_, ?_, rfl⟩
  · cases hd : net.dial (Ctx.withTimeout Ctx.background 10) endpoint with
    | error err => rw [getMetadata_dial_error net endpoint err hd]; rfl
    | ok conn =>
      cases hr : net.getChainMeta conn Ctx.background with
      | error err => rw [getMetadata_request_error net endpoint conn err hd hr]; rfl
      | ok resp => rw [getMetadata_ok net endpoint conn resp hd hr]; rfl
  · cases hd : net.dial (Ctx.withTimeout Ctx.background 10) endpoint with
    | error err => rw [getMetadata_dial_error net endpoint err hd]; rfl
    | ok conn =>
      cases hr : net.getChainMeta conn Ctx.background with
      | error err => rw [getMetadata_request_error net endpoint conn err hd hr]; rfl
      | ok resp => rw [getMetadata_ok net endpoint conn resp hd hr]; rfl

/-- C8, amended, at a node that accepts the connection and at a node that
refuses it. -/
theorem deadline_bounds_dial_only_witness :
    (getMetadata netGood "node:80").2.filterMap Call.ctx? =
        [Ctx.withTimeout Ctx.background 10, Ctx.background] ∧
      (getMetadata netRefusing "node:80").2.filterMap Call.ctx? =
        [Ctx.withTimeout Ctx.background 10] :=
  ⟨(deadline_bounds_dial_only netGood "node:80").2.2.2.1,
    (deadline_bounds_dial_only netRefusing "node:80").2.2.2.1⟩

/-! ## C3, C2: a failed fetch -/

/-- C3: when the fetch returns an error, `exporter.Collect` sends nothing on
the metric channel. -/
theorem collect_error_sends_nothing (net : Net) (e : exporter) (err : Error)
    (h : (getMetadata net e.endpoint).1.2 = some err) :
    (e.Collect net).sent = [] := by
  rw [collect_of_error net e err h]

/-- C3, at a node that refuses the connection. -/
theorem collect_error_sends_nothing_witness :
    (sampleExporter.Collect netRefusing).sent = [] :=
  collect_error_sends_nothing netRefusing sampleExporter { msg := "connection refused" } rfl

/-- C2 as stated fails: at a node that refuses the connection `Collect` does not
return, it exits the process with status 1, and a following scrape of a healthy
node is not served. -/
theorem collect_error_exits_process :
    (getMetadata netRefusing sampleExporter.endpoint).1.2 = some { msg := "connection refused" } ∧
    (sampleExporter.Collect netRefusing).exit ≠ Termination.returned ∧
    (sampleExporter.Collect netGood).exit = Termination.returned ∧
    (sampleExporter.Collect netGood).sent.length = 7 ∧
    (serve sampleExporter [netRefusing, netGood]).length = 1 ∧
    ((serve sampleExporter [netRefusing, netGood]).map CollectResult.sent).flatten = [] := by
  refine ⟨rfl, ?_, ?_, ?_, ?_, ?_⟩ <;> decide

/-- C2, amended: when the fetch returns an error, `exporter.Collect` hands the
error to `log.Fatal`, which logs it and exits the hosting process with status
1; `Collect` does not return to its caller, it has sent no sample, and no later
scrape is served by that process. -/
theorem collect_error_is_fatal (net : Net) (e : exporter) (err : Error) (rest : List Net)
    (h : (getMetadata net e.endpoint).1.2 = some err) :
    (e.Collect net).exit = Termination.exited 1 err ∧
    (e.Collect net).sent = [] ∧
    serve e (net :: rest) = [e.Collect net] ∧
    ((serve e (net :: rest)).map CollectResult.sent).flatten = [] := by
  have hx : (e.Collect net).exit = Termination.exited 1 err := by
    rw [collect_of_error net e err h]
  have hs : (e.Collect net).sent = [] := by
    rw [collect_of_error net e err h]
  have hserve : serve e (net :: rest) = [e.Collect net] := by
    unfold serve
    rw [if_neg]
    rw [hx]
    exact fun hne => Termination.noConfusion hne
  refine ⟨hx, hs, hserve, ?_⟩
  rw [hserve]
  simp [hs]

/-- C2, amended, at a node that refuses the connection, followed by a healthy
node. -/
theorem collect_error_is_fatal_witness :
    (sampleExporter.Collect netRefusing).exit =
        Termination.exited 1 { msg := "connection refused" } ∧
      (sampleExporter.Collect netRefusing).sent = [] ∧
      serve sampleExporter [netRefusing, netGood] = [sampleExporter.Collect netRefusing] ∧
      ((serve sampleExporter [netRefusing, netGood]).map CollectResult.sent).flatten = [] :=
  collect_error_is_fatal netRefusing sampleExporter { msg := "connection refused" } [netGood] rfl

/-! ## C4: partial sample sets -/

/-- C4: at a response whose epoch record is absent, `exporter.Collect` has sent
three samples (height, num_actions, tps) when it stops on the nil pointer
dereference `metadata.Epoch.Num`. -/
theorem collect_without_epoch_sends_three :
    (getMetadata netWithoutEpoch sampleExporter.endpoint).1.2 = none ∧
    (sampleExporter.Collect netWithoutEpoch).sent.map Metric.name =
      ["iotex_chainmeta_height", "iotex_chainmeta_num_actions", "iotex_chainmeta_tps"] ∧
    (sampleExporter.Collect netWithoutEpoch).sent.length = 3 ∧
    (sampleExporter.Collect netWithoutEpoch).exit = Termination.panicked := by
  refine ⟨rfl, ?_, ?_, ?_⟩ <;> decide

/-! ## C1: the seven samples -/

/-- C1 as stated fails: at a snapshot of height `2 ^ 53 + 1` the value of the
height sample is `2 ^ 53`, not the height. -/
theorem collect_height_sample_rounded :
    (getMetadata netTallChain sampleExporter.endpoint).1.2 = none ∧
    ((sampleExporter.Collect netTallChain).sent.map Metric.value).head? =
      some (FloatVal.finite 9007199254740992) ∧
    ((sampleExporter.Collect netTallChain).sent.map Metric.value).head? ≠
      some (FloatVal.finite 9007199254740993) := by
  refine ⟨rfl, ?_, ?_⟩ <;> decide

/-- C1, amended: after a fetch without error whose snapshot has its epoch
record, `exporter.Collect` returns after sending exactly seven samples, in the
order height, num_actions, tps, epoch_num, epoch_height,
epoch_gravity_chain_start_height, tps_float (each under the namespace
`iotex_chainmeta`); the value of each of the first six is the float64
conversion of the snapshot field, the value of the last is the `TpsFloat`
field, and each sample carries the one label `endpoint` with the endpoint of
the exporter as its value. -/
theorem collect_seven_samples (net : Net) (e : exporter) (s : ChainMeta) (ep : EpochData)
    (h : (getMetadata net e.endpoint).1 = (some s, none)) (hep : s.Epoch = some ep) :
    (e.Collect net).sent =
      [ gaugeSample "iotex_chainmeta_height" "Gauge for Iotex Chain metadata Height"
          e.endpoint (float64OfInt s.Height),
        gaugeSample "iotex_chainmeta_num_actions" "Gauge for Iotex Chain metadata NumActions"
          e.endpoint (float64OfInt s.NumActions),
        gaugeSample "iotex_chainmeta_tps" "Gauge for Iotex Chain metadata Tps"
          e.endpoint (float64OfInt s.Tps),
        gaugeSample "iotex_chainmeta_epoch_num" "Gauge for Iotex Chain metadata EpochNum"
          e.endpoint (float64OfInt ep.Num),
        gaugeSample "iotex_chainmeta_epoch_height" "Gauge for Iotex Chain metadata EpochHeight"
          e.endpoint (float64OfInt ep.Height),
        gaugeSample "iotex_chainmeta_epoch_gravity_chain_start_height"
          "Gauge for Iotex Chain metadata EpochGravityChainStartHeight"
          e.endpoint (float64OfInt ep.GravityChainStartHeight),
        gaugeSample "iotex_chainmeta_tps_float" "Gauge for Iotex Chain metadata TpsFloat"
          e.endpoint s.TpsFloat ] ∧
    (e.Collect net).exit = Termination.returned ∧
    (e.Collect net).sent.map Metric.labelPairs =
      List.replicate 7 [("endpoint", e.endpoint)] := by
  have hc := collect_of_ok net e (some s) h
  rw [collectBlocks_complete e.endpoint s ep hep] at hc
  rw [hc]
  exact ⟨rfl, rfl, rfl⟩

/-- C1, amended, at the scenario of the specification: the seven samples are
height=100, num_actions=5000, tps=50, epoch_num=2, epoch_height=80,
epoch_gravity_chain_start_height=1000, tps_float=50.5, each labelled with
endpoint "node:80". -/
theorem collect_seven_samples_witness :
    (sampleExporter.Collect netGood).sent.map
        (fun m => (m.name, m.value, m.labelPairs)) =
      [ ("iotex_chainmeta_height", FloatVal.finite 100, [("endpoint", "node:80")]),
        ("iotex_chainmeta_num_actions", FloatVal.finite 5000, [("endpoint", "node:80")]),
        ("iotex_chainmeta_tps", FloatVal.finite 50, [("endpoint", "node:80")]),
        ("iotex_chainmeta_epoch_num", FloatVal.finite 2, [("endpoint", "node:80")]),
        ("iotex_chainmeta_epoch_height", FloatVal.finite 80, [("endpoint", "node:80")]),
        ("iotex_chainmeta_epoch_gravity_chain_start_height", FloatVal.finite 1000,
          [("endpoint", "node:80")]),
        ("iotex_chainmeta_tps_float", FloatVal.finite 50.5, [("endpoint", "node:80")]) ] := by
  rw [(collect_seven_samples netGood sampleExporter sampleMeta
    { Num := 2, Height := 80, GravityChainStartHeight := 1000 } rfl rfl).1]
  rfl

/-! ## C10: agreement of `Describe` and `Collect` -/

/-- Agreement on a complete snapshot: after a fetch without error whose snapshot
has its epoch record, the descriptors of the metrics sent by `exporter.Collect`
are, one by one and in the same order, the descriptors sent by
`exporter.Describe`. -/
theorem collect_complete_agrees_with_describe (net : Net) (e : exporter) (s : ChainMeta)
    (ep : EpochData) (h : (getMetadata net e.endpoint).1 = (some s, none))
    (hep : s.Epoch = some ep) :
    (e.Collect net).sent.map Metric.desc = e.Describe ∧
    (e.Collect net).sent.map (fun m => (m.desc.fqName, m.desc.help, m.desc.variableLabels)) =
      (e.Describe).map (fun d => (d.fqName, d.help, d.variableLabels)) := by
  have hc := collect_of_ok net e (some s) h
  rw [collectBlocks_complete e.endpoint s ep hep] at hc
  rw [hc, describe_eval]
  exact ⟨rfl, rfl⟩

/-- C10: at a fetch without error whose response has no epoch record,
`exporter.Collect` sends three metrics, whose descriptors are the first three
of the seven that `exporter.Describe` sends, and stops on the nil pointer
dereference: the two lists of name, help text and label names differ, and four
announced descriptors are not used. -/
theorem collect_without_epoch_uses_three_descriptors :
    (getMetadata netWithoutEpoch sampleExporter.endpoint).1.2 = none ∧
    (sampleExporter.Collect netWithoutEpoch).sent.map
        (fun m => (m.desc.fqName, m.desc.help, m.desc.variableLabels)) =
      ((sampleExporter.Describe).map (fun d => (d.fqName, d.help, d.variableLabels))).take 3 ∧
    (sampleExporter.Collect netWithoutEpoch).sent.map
        (fun m => (m.desc.fqName, m.desc.help, m.desc.variableLabels)) ≠
      (sampleExporter.Describe).map (fun d => (d.fqName, d.help, d.variableLabels)) ∧
    ((sampleExporter.Collect netWithoutEpoch).sent.map Metric.desc).length = 3 ∧
    (sampleExporter.Describe).length = 7 := by
  refine ⟨rfl, ?_, ?_, ?_, ?_⟩ <;> decide

/-! ## C7: no state between scrapes -/

theorem serve_getElem_some (e : exporter) (nets : List Net) (k : Nat) (r : CollectResult)
    (h : (serve e nets)[k]? = some r) :
    ∃ net, nets[k]? = some net ∧ r = e.Collect net := by
  induction nets generalizing k with
  | nil => simp [serve] at h
  | cons net rest ih =>
    unfold serve at h
    by_cases hx : (e.Collect net).exit = Termination.returned
    · rw [if_pos hx] at h
      cases k with
      | zero =>
        simp only [List.getElem?_cons_zero, Option.some.injEq] at h
        exact ⟨net, by simp, h.symm⟩
      | succ j =>
        simp only [List.getElem?_cons_succ] at h
        obtain ⟨n2, hn, hr⟩ := ih j h
        exact ⟨n2, by simpa using hn, hr⟩
    · rw [if_neg hx] at h
      cases k with
      | zero =>
        simp only [List.getElem?_cons_zero, Option.some.injEq] at h
        exact ⟨net, by simp, h.symm⟩
      | succ j => simp at h

theorem collect_complete (net : Net) (e : exporter) (s : ChainMeta) (ep : EpochData)
    (h : (getMetadata net e.endpoint).1 = (some s, none)) (hep : s.Epoch = some ep) :
    e.Collect net =
      { sent := snapshotSamples e.endpoint s ep, exit := Termination.returned,
        calls := (getMetadata net e.endpoint).2 } := by
  have hc := collect_of_ok net e (some s) h
  rw [collectBlocks_complete e.endpoint s ep hep] at hc
  rw [hc]
  rfl

theorem serve_runs (e : exporter) (nets : List Net) (k : Nat) (net : Net)
    (hn : nets[k]? = some net)
    (hprev : ∀ j, j < k → ∃ n, nets[j]? = some n ∧ (e.Collect n).exit = Termination.returned) :
    (serve e nets)[k]? = some (e.Collect net) := by
  induction nets generalizing k with
  | nil => simp at hn
  | cons n0 rest ih =>
    cases k with
    | zero =>
      simp only [List.getElem?_cons_zero, Option.some.injEq] at hn
      subst hn
      unfold serve
      split_ifs <;> simp
    | succ j =>
      obtain ⟨n, hn0, hret⟩ := hprev 0 (Nat.succ_pos j)
      simp only [List.getElem?_cons_zero, Option.some.injEq] at hn0
      subst hn0
      unfold serve
      rw [if_pos hret]
      simp only [List.getElem?_cons_succ] at hn ⊢
      apply ih j hn
      intro i hi
      obtain ⟨m, hm, hmr⟩ := hprev (i + 1) (Nat.succ_lt_succ hi)
      exact ⟨m, by simpa using hm, hmr⟩

/-- C7: let `net` be the `k`-th network behaviour of any sequence of scrapes.
The `k`-th call of `exporter.Collect`, whenever it runs, is `Collect` on `net`
and the exporter alone, whatever the earlier behaviours were; it runs whenever
every earlier fetch gave a complete snapshot; it makes exactly one dial and at
most one request, those of its own fetch; on a complete snapshot it returns after sending the seven
samples of the mapping table applied to that snapshot and the endpoint; on an
error of the fetch, or on nil chain metadata, it sends nothing; on a snapshot
without epoch record it sends the first three samples of that snapshot.  So
what a call sends is fixed by its own response and the endpoint. -/
theorem collect_keeps_no_state (e : exporter) (nets : List Net) (k : Nat) (net : Net)
    (hn : nets[k]? = some net) :
    (∀ r, (serve e nets)[k]? = some r → r = e.Collect net) ∧
    ((∀ j, j < k → ∃ n s ep, nets[j]? = some n ∧
        (getMetadata n e.endpoint).1 = (some s, none) ∧ s.Epoch = some ep) →
      (serve e nets)[k]? = some (e.Collect net)) ∧
    (e.Collect net).calls.filter Call.isDial =
      [Call.dial (Ctx.withTimeout Ctx.background 10) e.endpoint] ∧
    ((e.Collect net).calls.filter Call.isRequest).length ≤ 1 ∧
    (∀ s ep, (getMetadata net e.endpoint).1 = (some s, none) → s.Epoch = some ep →
      (e.Collect net).sent = snapshotSamples e.endpoint s ep ∧
      (e.Collect net).exit = Termination.returned) ∧
    (∀ err, (getMetadata net e.endpoint).1.2 = some err → (e.Collect net).sent = []) ∧
    (∀ s, (getMetadata net e.endpoint).1 = (some s, none) → s.Epoch = none →
      (e.Collect net).sent =
        [ gaugeSample "iotex_chainmeta_height" "Gauge for Iotex Chain metadata Height"
            e.endpoint (float64OfInt s.Height),
          gaugeSample "iotex_chainmeta_num_actions" "Gauge for Iotex Chain metadata NumActions"
            e.endpoint (float64OfInt s.NumActions),
          gaugeSample "iotex_chainmeta_tps" "Gauge for Iotex Chain metadata Tps"
            e.endpoint (float64OfInt s.Tps) ]) ∧
    ((getMetadata net e.endpoint).1 = (none, none) → (e.Collect net).sent = []) := by
  refine ⟨?_, ?_, ?_, ?_, ?_, ?_, ?_, ?_⟩
  · intro r hr
    obtain ⟨n, hn2, hrn⟩ := serve_getElem_some e nets k r hr
    rw [hn] at hn2
    simp only [Option.some.injEq] at hn2
    rw [hrn, hn2]
  · intro hprev
    apply serve_runs e nets k net hn
    intro j hj
    obtain ⟨n, s, ep, hnj, hs, hep⟩ := hprev j hj
    refine ⟨n, hnj, ?_⟩
    rw [collect_complete n e s ep hs hep]
  · rw [collect_calls, getMetadata_one_dial]
  · rw [collect_calls]
    exact getMetadata_requests_le_one net e.endpoint
  · intro s ep hs hep
    rw [collect_complete net e s ep hs hep]
    exact ⟨rfl, rfl⟩
  · intro err herr
    rw [collect_of_error net e err herr]
  · intro s hs hep
    have hc := collect_of_ok net e (some s) hs
    rw [collectBlocks_without_epoch e.endpoint s hep] at hc
    rw [hc]
  · intro hs
    have hc := collect_of_ok net e none hs
    rw [collectBlocks_nil] at hc
    rw [hc]

/-- C7, at two consecutive scrapes of a node whose values change in between: the
second call runs, and it sends the seven samples of the second snapshot. -/
theorem collect_keeps_no_state_witness :
    (serve sampleExporter [netGood, netLater])[1]? = some (sampleExporter.Collect netLater) ∧
    (sampleExporter.Collect netLater).sent.map (fun m => (m.name, m.value)) =
      [ ("iotex_chainmeta_height", FloatVal.finite 101),
        ("iotex_chainmeta_num_actions", FloatVal.finite 5040),
        ("iotex_chainmeta_tps", FloatVal.finite 40),
        ("iotex_chainmeta_epoch_num", FloatVal.finite 3),
        ("iotex_chainmeta_epoch_height", FloatVal.finite 100),
        ("iotex_chainmeta_epoch_gravity_chain_start_height", FloatVal.finite 1010),
        ("iotex_chainmeta_tps_float", FloatVal.finite 40.25) ] := by
  have h := collect_keeps_no_state sampleExporter [netGood, netLater] 1 netLater rfl
  refine ⟨h.2.1 ?_, ?_⟩
  · intro j hj
    have hj0 : j = 0 := by omega
    subst hj0
    exact ⟨netGood, sampleMeta, { Num := 2, Height := 80, GravityChainStartHeight := 1000 },
      rfl, rfl, rfl⟩
  · rw [(h.2.2.2.2.1 _ { Num := 3, Height := 100, GravityChainStartHeight := 1010 } rfl rfl).1]
    rfl

/-! ## C6: exactness of the conversion to float64 -/

theorem excessBits_spec (fuel n : Nat) (h : n < 2 ^ (53 + fuel)) :
    n / 2 ^ excessBits fuel n < 2 ^ 53 ∧
      (excessBits fuel n = 0 ∨ 2 ^ 52 ≤ n / 2 ^ excessBits fuel n) := by
  induction fuel generalizing n with
  | zero =>
    simp only [excessBits, pow_zero, Nat.div_one]
    exact ⟨by simpa using h, Or.inl trivial⟩
  | succ f ih =>
    unfold excessBits
    by_cases hn : n < 2 ^ 53
    · rw [if_pos hn]
      simp only [pow_zero, Nat.div_one]
      exact ⟨hn, Or.inl trivial⟩
    · rw [if_neg hn]
      have h2 : n / 2 < 2 ^ (53 + f) := by
        have : 2 ^ (53 + (f + 1)) = 2 * 2 ^ (53 + f) := by ring
        rw [this] at h
        omega
      obtain ⟨ih1, ih2⟩ := ih (n / 2) h2
      have hdiv : n / 2 ^ (excessBits f (n / 2) + 1) = n / 2 / 2 ^ excessBits f (n / 2) := by
        rw [pow_succ, Nat.mul_comm, Nat.div_div_eq_div_mul]
      rw [hdiv]
      refine ⟨ih1, Or.inr ?_⟩
      rcases ih2 with h0 | h52
      · rw [h0]
        simp only [pow_zero, Nat.div_one]
        omega
      · exact h52

theorem roundToFloat64_of_dvd (n : Nat) (h : 2 ^ excessBits 64 n ∣ n) : roundToFloat64 n = n := by
  unfold roundToFloat64
  have hr : n % 2 ^ excessBits 64 n = 0 := Nat.mod_eq_zero_of_dvd h
  simp only [hr]
  rw [if_pos (by positivity)]
  exact Nat.div_mul_cancel h

theorem roundToFloat64_exact (n m j : Nat) (hn : n < 2 ^ 64) (hm : m < 2 ^ 53)
    (h : n = m * 2 ^ j) : roundToFloat64 n = n := by
  apply roundToFloat64_of_dvd
  obtain ⟨_, hk⟩ := excessBits_spec 64 n (lt_of_lt_of_le hn (by norm_num))
  rcases hk with h0 | h52
  · rw [h0]; simp
  · have hle : 2 ^ 52 * 2 ^ excessBits 64 n ≤ n :=
      le_trans (Nat.mul_le_mul_right _ h52) (Nat.div_mul_le_self n _)
    have hlt : n < 2 ^ 53 * 2 ^ j := by
      rw [h]
      exact Nat.mul_lt_mul_of_pos_right hm (by positivity)
    have hpow : 2 ^ (52 + excessBits 64 n) < 2 ^ (53 + j) := by
      rw [pow_add, pow_add]
      exact lt_of_le_of_lt hle hlt
    have hkj : 52 + excessBits 64 n < 53 + j := (Nat.pow_lt_pow_iff_right (by norm_num)).mp hpow
    have hdvd : 2 ^ excessBits 64 n ∣ 2 ^ j := pow_dvd_pow 2 (by omega)
    exact h ▸ Dvd.dvd.mul_left hdvd m

theorem float64OfInt_exact (i : Int) (h : Float64Exact i) :
    float64OfInt i = FloatVal.finite ((i : Int) : ℚ) := by
  obtain ⟨hn, m, j, hm, hmj⟩ := h
  have hr := roundToFloat64_exact i.natAbs m j hn hm hmj
  unfold float64OfInt float64IntValue
  rw [hr]
  congr 2
  split_ifs with hneg <;> omega

theorem float64Exact_of_natAbs_le (i : Int) (h : i.natAbs ≤ 2 ^ 53) : Float64Exact i := by
  refine ⟨lt_of_le_of_lt h (by norm_num), ?_⟩
  rcases Nat.lt_or_ge i.natAbs (2 ^ 53) with hlt | hge
  · exact ⟨i.natAbs, 0, hlt, by simp⟩
  · exact ⟨1, 53, by norm_num, by omega⟩

theorem roundToFloat64_cases (n : Nat) :
    (2 * (n % 2 ^ excessBits 64 n) < 2 ^ excessBits 64 n ∧
        roundToFloat64 n + n % 2 ^ excessBits 64 n = n) ∨
      (2 ^ excessBits 64 n ≤ 2 * (n % 2 ^ excessBits 64 n) ∧
        roundToFloat64 n + n % 2 ^ excessBits 64 n = n + 2 ^ excessBits 64 n) ∨
      (2 ^ excessBits 64 n = 2 * (n % 2 ^ excessBits 64 n) ∧
        roundToFloat64 n + n % 2 ^ excessBits 64 n = n) := by
  have hdm : n / 2 ^ excessBits 64 n * 2 ^ excessBits 64 n + n % 2 ^ excessBits 64 n = n :=
    Nat.div_add_mod' n _
  unfold roundToFloat64
  simp only
  by_cases h1 : 2 * (n % 2 ^ excessBits 64 n) < 2 ^ excessBits 64 n
  · rw [if_pos h1]
    exact Or.inl ⟨h1, hdm⟩
  · rw [if_neg h1]
    by_cases h2 : 2 ^ excessBits 64 n < 2 * (n % 2 ^ excessBits 64 n)
    · rw [if_pos h2]
      refine Or.inr (Or.inl ⟨by omega, ?_⟩)
      rw [Nat.add_mul, Nat.one_mul]
      omega
    · rw [if_neg h2]
      rcases Nat.mod_two_eq_zero_or_one (n / 2 ^ excessBits 64 n) with h0 | h1'
      · rw [h0, Nat.add_zero]
        exact Or.inr (Or.inr ⟨by omega, hdm⟩)
      · rw [h1', Nat.add_mul, Nat.one_mul]
        exact Or.inr (Or.inl ⟨by omega, by omega⟩)

/-- The conversion rounds to a nearest neighbour: the result is a multiple of
the spacing `2 ^ k` and lies within half a spacing of the argument. -/
theorem roundToFloat64_nearest (n : Nat) :
    2 ^ excessBits 64 n ∣ roundToFloat64 n ∧
    2 * (roundToFloat64 n - n) ≤ 2 ^ excessBits 64 n ∧
    2 * (n - roundToFloat64 n) ≤ 2 ^ excessBits 64 n := by
  refine ⟨?_, ?_⟩
  · unfold roundToFloat64
    simp only
    split_ifs <;> exact Dvd.intro_left _ rfl
  · have hlt : n % 2 ^ excessBits 64 n < 2 ^ excessBits 64 n := Nat.mod_lt _ (by positivity)
    rcases roundToFloat64_cases n with ⟨h1, h2⟩ | ⟨h1, h2⟩ | ⟨h1, h2⟩ <;> omega

theorem roundToFloat64_eq_self_iff (n : Nat) (hn : n < 2 ^ 64) :
    roundToFloat64 n = n ↔ ∃ m j : Nat, m < 2 ^ 53 ∧ n = m * 2 ^ j := by
  constructor
  · intro h
    have hlt : n % 2 ^ excessBits 64 n < 2 ^ excessBits 64 n := Nat.mod_lt _ (by positivity)
    have hpos : 0 < 2 ^ excessBits 64 n := by positivity
    have hr : n % 2 ^ excessBits 64 n = 0 := by
      rcases roundToFloat64_cases n with ⟨h1, h2⟩ | ⟨h1, h2⟩ | ⟨h1, h2⟩ <;> omega
    obtain ⟨hq, _⟩ := excessBits_spec 64 n (lt_of_lt_of_le hn (by norm_num))
    refine ⟨n / 2 ^ excessBits 64 n, excessBits 64 n, hq, ?_⟩
    exact (Nat.div_mul_cancel (Nat.dvd_of_mod_eq_zero hr)).symm
  · rintro ⟨m, j, hm, h⟩
    exact roundToFloat64_exact n m j hn hm h

/-- C6 as stated fails: the 64-bit integer `2 ^ 53 + 1` is converted to the
float64 `2 ^ 53`, and `-(2 ^ 53 + 1)` to `-(2 ^ 53)`. -/
theorem float64_conversion_not_exact :
    ¬ (∀ i : Int, -(2 ^ 63) ≤ i → i < 2 ^ 64 →
        float64OfInt i = FloatVal.finite ((i : Int) : ℚ)) ∧
    float64IntValue 9007199254740993 = 9007199254740992 ∧
    float64IntValue (-9007199254740993) = -9007199254740992 := by
  refine ⟨?_, by decide, by decide⟩
  intro h
  have h1 := h 9007199254740993 (by norm_num) (by norm_num)
  have h2 : float64IntValue 9007199254740993 = 9007199254740992 := by decide
  unfold float64OfInt at h1
  rw [h2] at h1
  simp only [FloatVal.finite.injEq] at h1
  norm_num at h1

theorem float64IntValue_eq_iff (i : Int) :
    float64IntValue i = i ↔ roundToFloat64 i.natAbs = i.natAbs := by
  unfold float64IntValue
  split_ifs with hneg <;> omega

theorem float64OfInt_eq_iff (i : Int) (hi : i.natAbs < 2 ^ 64) :
    float64OfInt i = FloatVal.finite ((i : Int) : ℚ) ↔ Float64Exact i := by
  unfold float64OfInt Float64Exact
  rw [FloatVal.finite.injEq, Int.cast_inj, float64IntValue_eq_iff,
    roundToFloat64_eq_self_iff _ hi]
  exact ⟨fun h => ⟨hi, h⟩, fun h => h.2⟩

theorem float64IntValue_near (i : Int) :
    2 * (float64IntValue i - i).natAbs ≤ 2 ^ excessBits 64 i.natAbs := by
  obtain ⟨_, h1, h2⟩ := roundToFloat64_nearest i.natAbs
  unfold float64IntValue
  generalize 2 ^ excessBits 64 i.natAbs = P at h1 h2 ⊢
  generalize roundToFloat64 i.natAbs = a at h1 h2 ⊢
  split_ifs with hneg <;> omega

/-- C6, amended: after a fetch without error whose snapshot has its epoch
record, the values of the seven samples are, in order, the float64 conversions
of the six integer fields and the `TpsFloat` field unchanged, whatever the
fields are.  Field by field, the value of an integer sample is the field
itself whenever the field is one a float64 holds exactly (a 64-bit magnitude
`m * 2 ^ j` with `m < 2 ^ 53`, which covers every magnitude up to `2 ^ 53`); a
64-bit field that a float64 does not hold is converted to another number, at
most half a spacing `2 ^ k` of the float64 grid away. -/
theorem collect_values_exact (net : Net) (e : exporter) (s : ChainMeta) (ep : EpochData)
    (h : (getMetadata net e.endpoint).1 = (some s, none)) (hep : s.Epoch = some ep) :
    (e.Collect net).sent.map Metric.value =
      [ float64OfInt s.Height, float64OfInt s.NumActions, float64OfInt s.Tps,
        float64OfInt ep.Num, float64OfInt ep.Height,
        float64OfInt ep.GravityChainStartHeight, s.TpsFloat ] ∧
    (Float64Exact s.Height →
      ((e.Collect net).sent.map Metric.value)[0]? =
        some (FloatVal.finite ((s.Height : Int) : ℚ))) ∧
    (Float64Exact s.NumActions →
      ((e.Collect net).sent.map Metric.value)[1]? =
        some (FloatVal.finite ((s.NumActions : Int) : ℚ))) ∧
    (Float64Exact s.Tps →
      ((e.Collect net).sent.map Metric.value)[2]? =
        some (FloatVal.finite ((s.Tps : Int) : ℚ))) ∧
    (Float64Exact ep.Num →
      ((e.Collect net).sent.map Metric.value)[3]? =
        some (FloatVal.finite ((ep.Num : Int) : ℚ))) ∧
    (Float64Exact ep.Height →
      ((e.Collect net).sent.map Metric.value)[4]? =
        some (FloatVal.finite ((ep.Height : Int) : ℚ))) ∧
    (Float64Exact ep.GravityChainStartHeight →
      ((e.Collect net).sent.map Metric.value)[5]? =
        some (FloatVal.finite ((ep.GravityChainStartHeight : Int) : ℚ))) ∧
    ((e.Collect net).sent.map Metric.value)[6]? = some s.TpsFloat ∧
    (∀ i : Int, i.natAbs ≤ 2 ^ 53 → Float64Exact i) ∧
    (∀ i : Int, i.natAbs < 2 ^ 64 →
      (float64OfInt i = FloatVal.finite ((i : Int) : ℚ) ↔ Float64Exact i)) ∧
    (∀ i : Int, float64OfInt i = FloatVal.finite ((float64IntValue i : Int) : ℚ) ∧
      2 * (float64IntValue i - i).natAbs ≤ 2 ^ excessBits 64 i.natAbs) := by
  have hc : (e.Collect net).sent.map Metric.value =
      [ float64OfInt s.Height, float64OfInt s.NumActions, float64OfInt s.Tps,
        float64OfInt ep.Num, float64OfInt ep.Height,
        float64OfInt ep.GravityChainStartHeight, s.TpsFloat ] := by
    rw [collect_complete net e s ep h hep]
    rfl
  rw [hc]
  refine ⟨rfl, ?_, ?_, ?_, ?_, ?_, ?_, rfl, float64Exact_of_natAbs_le, float64OfInt_eq_iff,
    fun i => ⟨rfl, float64IntValue_near i⟩⟩
  all_goals
    intro hx
    rw [← float64OfInt_exact _ hx]
    rfl

/-- C6, amended, at a snapshot with the fields `2 ^ 60`, `5000`, `2 ^ 53 + 1`,
`2`, `2 ^ 53` and `0`: the tps sample alone is rounded, to `2 ^ 53`; the height
sample is the field. -/
theorem collect_values_exact_witness :
    (sampleExporter.Collect (netAnswering { ChainMeta := some mixedMeta })).sent.map
        Metric.value =
      [ FloatVal.finite 1152921504606846976, FloatVal.finite 5000,
        FloatVal.finite 9007199254740992, FloatVal.finite 2,
        FloatVal.finite 9007199254740992, FloatVal.finite 0, FloatVal.finite 50.5 ] ∧
    ((sampleExporter.Collect (netAnswering { ChainMeta := some mixedMeta })).sent.map
        Metric.value)[0]? = some (FloatVal.finite 1152921504606846976) := by
  have h := collect_values_exact (netAnswering { ChainMeta := some mixedMeta }) sampleExporter
    mixedMeta { Num := 2, Height := 9007199254740992, GravityChainStartHeight := 0 } rfl rfl
  refine ⟨h.1.trans ?_, (h.2.1 ⟨by decide, 1, 60, by decide, by decide⟩).trans ?_⟩
  · rfl
  · simp [mixedMeta]

end ChainMetaExporter
